import Mathlib

/-!
Verification of the pipeline stage-chaining example (`src/Pipelines.ipynb`).

The notebook defines two `param.Parameterized` stages (`Stage1`, `Stage2`)
and wires them into a `pn.pipeline.Pipeline`.  The `Pipeline` class itself
lives in the host framework, not in this repository, so the chain-linking
operations (`add_stage`, `advance`, `retreat`) are modelled from the spec;
the two stage classes are embedded from the notebook source.

Numeric parameter values (`param.Number`) are modelled as rationals, which
represent every concrete value appearing in the example (5, 25, 3125, 0.1)
exactly.
-/

namespace Pipelines

/-- A single declared parameter: its current value and its optional
bounds, as in `param.Number(default=5, bounds=(0, 10))` where `none`
models an absent bound, as in `bounds=(0, None)`. -/
structure Param where
  value : ℚ
  lo : Option ℚ
  hi : Option ℚ
deriving Repr, DecidableEq

/-- The receiving parameter's own validity check: the candidate value must
lie within the declared bounds (the bounds check `param.Number` performs
on assignment). -/
def Param.valid (p : Param) (v : ℚ) : Bool :=
  (match p.lo with
   | none => true
   | some l => decide (l ≤ v)) &&
  (match p.hi with
   | none => true
   | some h => decide (v ≤ h))

/-- First-match lookup of a name in an association list (exact string,
case-sensitive, first match wins). -/
def lookupName {α : Type} : String → List (String × α) → Option α
  | _, [] => none
  | nm, (k, v) :: rest => if k = nm then some v else lookupName nm rest

/-- A stage: its parameter set (ordered mapping from name to parameter),
its declared output names (from the `param.output` decorator), and its
output-producing method as a function of the parameter set. -/
structure Stage where
  params : List (String × Param)
  outputNames : List String
  outputFn : List (String × Param) → List ℚ

/-- Errors of the stage chain linker, from the spec's error taxonomy. -/
inductive PipelineError where
  | duplicateName
  | noNextStage
  | noPreviousStage
  | invalidTransition
  | outputArityMismatch
deriving Repr, DecidableEq

/-- Modelled from the spec: the Chain of the Stage Chain Linker
(`pn.pipeline.Pipeline`, whose implementation is not in this repository):
an ordered sequence of named stages and an integer position. -/
structure Chain where
  stages : List (String × Stage)
  current_index : ℕ

/-- Modelled from the spec: `register` / `add_stage` appends a uniquely
named stage; a name already present fails with `DuplicateNameError` and
leaves the chain unmodified. -/
def Chain.add_stage (ch : Chain) (name : String) (s : Stage) :
    Except PipelineError Chain :=
  if ch.stages.any (fun p => p.1 = name) then
    .error .duplicateName
  else
    .ok { ch with stages := ch.stages ++ [(name, s)] }

/-- Resolve a stage's declared outputs by invoking its output-producing
method and pairing the returned values with the declared names; a
disagreement in count is `OutputArityMismatchError`. -/
def resolveOutputs (s : Stage) : Except PipelineError (List (String × ℚ)) :=
  let vals := s.outputFn s.params
  if vals.length = s.outputNames.length then
    .ok (s.outputNames.zip vals)
  else
    .error .outputArityMismatch

/-- All name-matched assignments pass the receiving parameter's own
validity check; names with no matching output impose no condition. -/
def allMatchedValid (outs : List (String × ℚ)) :
    List (String × Param) → Bool
  | [] => true
  | (n, p) :: rest =>
      (match lookupName n outs with
       | none => true
       | some v => p.valid v) && allMatchedValid outs rest

/-- Assign an optional matched output value to a parameter, keeping the
parameter untouched when no output name matched. -/
def assignParam (p : Param) : Option ℚ → Param
  | none => p
  | some v => { p with value := v }

/-- Name-matched output propagation: each input parameter whose name
matches a resolved output name is bound to that output's value; the rest
keep their prior values. -/
def propagate (outs : List (String × ℚ)) :
    List (String × Param) → List (String × Param)
  | [] => []
  | (n, p) :: rest =>
      (n, assignParam p (lookupName n outs)) :: propagate outs rest

/-- Modelled from the spec: `advance` of the Stage Chain Linker
(`pn.pipeline.Pipeline`, whose implementation is not in this repository).
Fails with `NoNextStageError` when `current_index + 1` is not a valid
index; otherwise resolves the current stage's outputs, checks every
name-matched assignment against the receiving input's validity
(failure is `InvalidTransitionError`, all-or-nothing, before any state
change), and on success binds the matched inputs of the next stage and
increments `current_index`. -/
def Chain.advance (ch : Chain) : Except PipelineError Chain :=
  match ch.stages.get? ch.current_index,
        ch.stages.get? (ch.current_index + 1) with
  | some (_, cur), some (nname, nxt) =>
      match resolveOutputs cur with
      | .error e => .error e
      | .ok outs =>
          if allMatchedValid outs nxt.params then
            .ok { stages := ch.stages.set (ch.current_index + 1)
                    (nname, { nxt with params := propagate outs nxt.params }),
                  current_index := ch.current_index + 1 }
          else
            .error .invalidTransition
  | _, _ => .error .noNextStage

/-- Modelled from the spec: `retreat` of the Stage Chain Linker
(`pn.pipeline.Pipeline`, whose implementation is not in this repository).
Fails with `NoPreviousStageError` at index 0; otherwise decrements
`current_index` without touching any stage state. -/
def Chain.retreat (ch : Chain) : Except PipelineError Chain :=
  if ch.current_index = 0 then
    .error .noPreviousStage
  else
    .ok { ch with current_index := ch.current_index - 1 }

/-- The operations a caller can perform on a chain. -/
inductive Op where
  | register (name : String) (s : Stage)
  | advance
  | retreat

/-- Apply one operation; a failed operation surfaces its error to the
caller and leaves the chain exactly as it was. -/
def Chain.applyOp (ch : Chain) : Op → Chain
  | .register n s =>
      match ch.add_stage n s with
      | .ok c => c
      | .error _ => ch
  | .advance =>
      match ch.advance with
      | .ok c => c
      | .error _ => ch
  | .retreat =>
      match ch.retreat with
      | .ok c => c
      | .error _ => ch

/-- Run a sequence of operations from a starting chain. -/
def Chain.run (ch : Chain) (ops : List Op) : Chain :=
  ops.foldl Chain.applyOp ch

/-- The value of the named parameter of the stage at position `i`. -/
def Chain.paramValue (ch : Chain) (i : ℕ) (nm : String) : Option ℚ :=
  match ch.stages.get? i with
  | some (_, s) => (lookupName nm s.params).map Param.value
  | none => none

/-! ## The notebook's two stages (`src/Pipelines.ipynb`) -/

/-- Python's `**` restricted to the rational model: exact for a
non-negative integer exponent, which covers every value the example ever
exponentiates (`b` defaults to 5).  A non-integer or negative exponent
would produce a Python float outside this exact model and is mapped to 0;
no claim touches that case. -/
def pyPow (a b : ℚ) : ℚ :=
  if b.den = 1 ∧ 0 ≤ b.num then a ^ b.num.toNat else 0

/-- The parameter state of `Stage1`: its two `param.Number` parameters
`a` and `b`. -/
structure Stage1State where
  a : ℚ
  b : ℚ
deriving Repr, DecidableEq

/-- `Stage1.output` from the notebook:
`return self.a * self.b, self.a ** self.b`.  The method reads `self.a`
and `self.b` and returns the pair; it assigns nothing, which the
embedding records by returning the state unchanged alongside the pair. -/
def Stage1State.output (self : Stage1State) : (ℚ × ℚ) × Stage1State :=
  ((self.a * self.b, pyPow self.a self.b), self)

/-- The value of the named parameter, defaulting to 0 when absent (the
notebook stages always look up names they declare). -/
def valueOf (nm : String) (ps : List (String × Param)) : ℚ :=
  ((lookupName nm ps).map Param.value).getD 0

/-- `Stage1` from the notebook, as a stage descriptor with parameter
values `a` and `b`: parameters `a = param.Number(default=5, bounds=(0, 10))`
and `b = param.Number(default=5, bounds=(0, 10))`, declared outputs
`('c', param.Number), ('d', param.Number)` produced by `output`. -/
def stage1At (a b : ℚ) : Stage where
  params := [("a", ⟨a, some 0, some 10⟩), ("b", ⟨b, some 0, some 10⟩)]
  outputNames := ["c", "d"]
  outputFn := fun ps =>
    let r := (Stage1State.output ⟨valueOf "a" ps, valueOf "b" ps⟩).1
    [r.1, r.2]

/-- `stage1 = Stage1()`: the instance with the declared defaults. -/
def stage1 : Stage := stage1At 5 5

/-- The `c` parameter of `Stage2`:
`param.Number(default=5, precedence=-1, bounds=(0, None))`. -/
def stage2cParam : Param := ⟨5, some 0, none⟩

/-- `Stage2` from the notebook, with parameter values `c` and `exp`:
`c = param.Number(default=5, precedence=-1, bounds=(0, None))` and
`exp = param.Number(default=0.1, bounds=(0, 3))`; it declares no
outputs. -/
def stage2At (c e : ℚ) : Stage where
  params := [("c", { stage2cParam with value := c }), ("exp", ⟨e, some 0, some 3⟩)]
  outputNames := []
  outputFn := fun _ => []

/-- `Stage2()`: the instance with the declared defaults (`c = 5`,
`exp = 0.1`). -/
def stage2 : Stage := stage2At 5 (1/10)

/-- The notebook's pipeline: an empty `Pipeline()` with
`add_stage('Stage 1', stage1)` and `add_stage('Stage 2', stage2)`. -/
def examplePipeline : Chain :=
  Chain.run ⟨[], 0⟩ [.register "Stage 1" stage1, .register "Stage 2" stage2]

/-- `Stage2` after the first `advance`: `c` bound to Stage1's output 25,
`exp` untouched at its default. -/
def stage2upd : Stage where
  params := [("c", ⟨25, some 0, none⟩), ("exp", ⟨1/10, some 0, some 3⟩)]
  outputNames := []
  outputFn := fun _ => []

/-- The example pipeline after one successful `advance`. -/
def advancedPipeline : Chain :=
  ⟨[("Stage 1", stage1), ("Stage 2", stage2upd)], 1⟩

/-- A stage whose declared output `c` produces the value -1, which
violates the `bounds=(0, None)` constraint of the `c` input of `Stage2`;
used to exercise the `InvalidTransitionError` path. -/
def badStage : Stage where
  params := []
  outputNames := ["c"]
  outputFn := fun _ => [-1]

/-- A chain whose first transition must fail validation: `badStage`
feeds `c = -1` into the bounded `c` input of `Stage2`. -/
def badChain : Chain :=
  ⟨[("Bad", badStage), ("Stage 2", stage2)], 0⟩

/-- A one-stage chain: its only position is both the first and the last
index, so both navigation boundaries are active. -/
def singleStageChain : Chain :=
  ⟨[("Stage 1", stage1)], 0⟩

/-! ## General lemmas about the linker operations -/

theorem lookupName_propagate (outs : List (String × ℚ))
    (ps : List (String × Param)) (nm : String) :
    lookupName nm (propagate outs ps) =
      (lookupName nm ps).map (fun p => assignParam p (lookupName nm outs)) := by
  induction ps with
  | nil => rfl
  | cons kp rest ih =>
      obtain ⟨k, p⟩ := kp
      by_cases hk : k = nm
      · subst hk
        simp [propagate, lookupName]
      · simp [propagate, lookupName, hk, ih]

theorem allMatchedValid_iff (outs : List (String × ℚ))
    (ps : List (String × Param)) :
    allMatchedValid outs ps = true ↔
      ∀ kp ∈ ps, ∀ v, lookupName kp.1 outs = some v → kp.2.valid v = true := by
  induction ps with
  | nil => simp [allMatchedValid]
  | cons kp rest ih =>
      obtain ⟨k, p⟩ := kp
      cases h : lookupName k outs with
      | none => simp [allMatchedValid, h, ih]
      | some v => simp [allMatchedValid, h, ih, Bool.and_eq_true]

theorem lt_length_of_get?_eq_some {α : Type} {l : List α} {n : ℕ} {a : α}
    (h : l.get? n = some a) : n < l.length := by
  by_contra hn
  rw [List.get?_eq_none.mpr (Nat.le_of_not_lt hn)] at h
  exact Option.noConfusion h

theorem advance_ok_shape {ch ch' : Chain} (h : ch.advance = .ok ch') :
    ∃ cur nxt outs,
      ch.stages.get? ch.current_index = some cur ∧
      ch.stages.get? (ch.current_index + 1) = some nxt ∧
      resolveOutputs cur.2 = .ok outs ∧
      allMatchedValid outs nxt.2.params = true ∧
      ch' = ⟨ch.stages.set (ch.current_index + 1)
               (nxt.1, { nxt.2 with params := propagate outs nxt.2.params }),
             ch.current_index + 1⟩ := by
  unfold Chain.advance at h
  split at h
  case _ cname cur nname nxt hc hn =>
    split at h
    case _ e ho => exact absurd h (by simp)
    case _ outs ho =>
      split at h
      case isTrue hv =>
        refine ⟨(cname, cur), (nname, nxt), outs, hc, hn, ho, hv, ?_⟩
        exact (Except.ok.inj h).symm
      case isFalse hv => exact absurd h (by simp)
  case _ => exact absurd h (by simp)

theorem advance_ok_build {ch : Chain} {cname nname : String}
    {cur nxt : Stage} {outs : List (String × ℚ)}
    (hc : ch.stages.get? ch.current_index = some (cname, cur))
    (hn : ch.stages.get? (ch.current_index + 1) = some (nname, nxt))
    (ho : resolveOutputs cur = .ok outs)
    (hv : allMatchedValid outs nxt.params = true) :
    ch.advance = .ok ⟨ch.stages.set (ch.current_index + 1)
        (nname, { nxt with params := propagate outs nxt.params }),
      ch.current_index + 1⟩ := by
  unfold Chain.advance
  rw [hc, hn]
  simp [ho, hv]

/-! ## Evaluation of the notebook's concrete pipeline -/

theorem stage1_outputs_eval : stage1.outputFn stage1.params = [25, 3125] := by
  simp [stage1, stage1At, valueOf, lookupName, Stage1State.output, pyPow]
  norm_num

theorem resolveOutputs_stage1 :
    resolveOutputs stage1 = .ok [("c", 25), ("d", 3125)] := by
  rw [resolveOutputs, stage1_outputs_eval]
  rfl

theorem example_advance_eval : examplePipeline.advance = .ok advancedPipeline := by
  show Chain.advance ⟨[("Stage 1", stage1), ("Stage 2", stage2)], 0⟩ = .ok advancedPipeline
  simp only [Chain.advance]
  norm_num [resolveOutputs, stage1, stage1At, valueOf, lookupName, Stage1State.output, pyPow,
    allMatchedValid, propagate, assignParam, Param.valid, stage2, stage2At, stage2cParam,
    advancedPipeline, stage2upd]
  rfl

theorem add_stage_ok_shape {ch : Chain} {n : String} {s : Stage} {c : Chain}
    (h : ch.add_stage n s = .ok c) :
    c = { ch with stages := ch.stages ++ [(n, s)] } := by
  unfold Chain.add_stage at h
  split at h
  · exact absurd h (by simp)
  · exact (Except.ok.inj h).symm

theorem retreat_ok_shape {ch c : Chain} (h : ch.retreat = .ok c) :
    ch.current_index ≠ 0 ∧
      c = { ch with current_index := ch.current_index - 1 } := by
  unfold Chain.retreat at h
  split at h
  · exact absurd h (by simp)
  case _ h0 => exact ⟨h0, (Except.ok.inj h).symm⟩

theorem applyOp_preserves_bounds (ch : Chain) (op : Op)
    (h1 : 1 ≤ ch.stages.length) (h2 : ch.current_index < ch.stages.length) :
    1 ≤ (ch.applyOp op).stages.length ∧
      (ch.applyOp op).current_index < (ch.applyOp op).stages.length := by
  cases op with
  | register n s =>
      simp only [Chain.applyOp]
      rcases hr : ch.add_stage n s with e | c
      · exact ⟨h1, h2⟩
      · obtain rfl := add_stage_ok_shape hr
        show 1 ≤ (ch.stages ++ [(n, s)]).length ∧
          ch.current_index < (ch.stages ++ [(n, s)]).length
        simp only [List.length_append, List.length_cons, List.length_nil]
        omega
  | advance =>
      simp only [Chain.applyOp]
      rcases ha : ch.advance with e | c
      · exact ⟨h1, h2⟩
      · obtain ⟨cur, nxt, outs, hc, hn, ho, hv, rfl⟩ := advance_ok_shape ha
        have hlt := lt_length_of_get?_eq_some hn
        refine ⟨?_, ?_⟩ <;>
          simp only [List.length_set] <;> omega
  | retreat =>
      simp only [Chain.applyOp]
      rcases hr : ch.retreat with e | c
      · exact ⟨h1, h2⟩
      · obtain ⟨h0, rfl⟩ := retreat_ok_shape hr
        show 1 ≤ ch.stages.length ∧ ch.current_index - 1 < ch.stages.length
        omega

/-! ## The claims -/

/-- C1: for every forward transition, if the current stage resolves an
output named `nm` to value `v` and the next stage declares an input
parameter of the same name, then after a successful `advance` the next
stage holds that parameter with value `v` — the value the
output-producing method returned at the moment of the transition. -/
theorem advance_propagates_matched_output
    {ch ch' : Chain} {nm : String} {cur nxt : String × Stage}
    {outs : List (String × ℚ)} {v : ℚ} {p : Param}
    (hc : ch.stages.get? ch.current_index = some cur)
    (hn : ch.stages.get? (ch.current_index + 1) = some nxt)
    (ho : resolveOutputs cur.2 = .ok outs)
    (hv : lookupName nm outs = some v)
    (hp : lookupName nm nxt.2.params = some p)
    (hadv : ch.advance = .ok ch') :
    ∃ st, ch'.stages.get? (ch.current_index + 1) = some st ∧
      ∃ q, lookupName nm st.2.params = some q ∧ q.value = v := by
  obtain ⟨cur2, nxt2, outs2, hc2, hn2, ho2, hval, rfl⟩ := advance_ok_shape hadv
  have ecur : cur2 = cur := Option.some.inj (hc2.symm.trans hc)
  subst ecur
  have enxt : nxt2 = nxt := Option.some.inj (hn2.symm.trans hn)
  subst enxt
  have eouts : outs2 = outs := Except.ok.inj (ho2.symm.trans ho)
  subst eouts
  have hlt : ch.current_index + 1 < ch.stages.length := lt_length_of_get?_eq_some hn
  refine ⟨_, List.get?_set_eq_of_lt _ hlt, { p with value := v }, ?_, rfl⟩
  show lookupName nm (propagate outs2 nxt2.2.params) = some { p with value := v }
  rw [lookupName_propagate, hp, hv]
  rfl

/-- Witness for C1: in the notebook pipeline, after the first `advance`
the `c` parameter of `Stage2` holds Stage1's resolved output 25. -/
theorem advance_propagates_matched_output_witness :
    ∃ st, advancedPipeline.stages.get? (examplePipeline.current_index + 1) = some st ∧
      ∃ q, lookupName "c" st.2.params = some q ∧ q.value = 25 :=
  @advance_propagates_matched_output examplePipeline advancedPipeline "c"
    ("Stage 1", stage1) ("Stage 2", stage2) [("c", 25), ("d", 3125)] 25 ⟨5, some 0, none⟩
    rfl rfl resolveOutputs_stage1 rfl rfl example_advance_eval

/-- C2: in the concrete two-stage chain, Stage1 with `a = 5`, `b = 5`
produces outputs `c = 25` and `d = 3125`; after registering both stages
and calling `advance` once, the `c` input of `Stage2` equals 25, its
`exp` input remains at the default 0.1, and the position moved to 1. -/
theorem example_pipeline_concrete :
    stage1.outputFn stage1.params = [25, 3125] ∧
    examplePipeline.stages.length = 2 ∧
    ∃ ch', examplePipeline.advance = .ok ch' ∧
      ch'.paramValue 1 "c" = some 25 ∧
      ch'.paramValue 1 "exp" = some (1/10) ∧
      ch'.current_index = 1 :=
  ⟨stage1_outputs_eval, rfl, advancedPipeline, example_advance_eval, rfl, rfl, rfl⟩

/-- C3: `advance` succeeds even when outputs have no identically named
input on the next stage; every input parameter with no matching output
keeps its prior value, and only the name-matched assignments constrain
success. -/
theorem advance_partial_consumption
    {ch : Chain} {cname nname : String} {cur nxt : Stage}
    {outs : List (String × ℚ)}
    (hc : ch.stages.get? ch.current_index = some (cname, cur))
    (hn : ch.stages.get? (ch.current_index + 1) = some (nname, nxt))
    (ho : resolveOutputs cur = .ok outs)
    (hv : ∀ kp ∈ nxt.params, ∀ v, lookupName kp.1 outs = some v → kp.2.valid v = true) :
    ∃ ch', ch.advance = .ok ch' ∧
      ∃ st, ch'.stages.get? (ch.current_index + 1) = some st ∧
        ∀ nm p, lookupName nm nxt.params = some p → lookupName nm outs = none →
          lookupName nm st.2.params = some p := by
  have hval : allMatchedValid outs nxt.params = true := (allMatchedValid_iff _ _).mpr hv
  have hlt : ch.current_index + 1 < ch.stages.length := lt_length_of_get?_eq_some hn
  refine ⟨_, advance_ok_build hc hn ho hval, _, List.get?_set_eq_of_lt _ hlt, ?_⟩
  intro nm p hp hnone
  show lookupName nm (propagate outs nxt.params) = some p
  rw [lookupName_propagate, hp, hnone]
  rfl

/-- Witness for C3: in the notebook pipeline the output `d` has no
matching input and the input `exp` has no matching output, yet the
`advance` succeeds and `exp` keeps its value. -/
theorem advance_partial_consumption_witness :
    ∃ ch', examplePipeline.advance = .ok ch' ∧
      ∃ st, ch'.stages.get? (examplePipeline.current_index + 1) = some st ∧
        ∀ nm p, lookupName nm stage2.params = some p → lookupName nm [("c", (25:ℚ)), ("d", 3125)] = none →
          lookupName nm st.2.params = some p :=
  @advance_partial_consumption examplePipeline "Stage 1" "Stage 2" stage1 stage2
    [("c", 25), ("d", 3125)]
    rfl rfl resolveOutputs_stage1 (by
      intro kp hkp v hveq
      simp only [stage2, stage2At, stage2cParam, List.mem_cons, List.not_mem_nil, or_false] at hkp
      rcases hkp with h | h <;> subst h <;> simp [lookupName] at hveq <;> subst hveq <;> decide)

/-- C4: if a name-matched output value fails the receiving input
parameter's validity check, `advance` raises `InvalidTransitionError`
and the chain — both `current_index` and every stage — is left exactly
as it was: no partial propagation happens. -/
theorem advance_invalid_value_rejected
    {ch : Chain} {cname nname : String} {cur nxt : Stage}
    {outs : List (String × ℚ)}
    (hc : ch.stages.get? ch.current_index = some (cname, cur))
    (hn : ch.stages.get? (ch.current_index + 1) = some (nname, nxt))
    (ho : resolveOutputs cur = .ok outs)
    (hbad : ∃ kp ∈ nxt.params, ∃ v, lookupName kp.1 outs = some v ∧ kp.2.valid v = false) :
    ch.advance = .error .invalidTransition ∧ ch.applyOp .advance = ch := by
  have hval : allMatchedValid outs nxt.params = false := by
    rcases hbad with ⟨kp, hkp, v, hvv, hbadv⟩
    cases hb : allMatchedValid outs nxt.params
    · rfl
    · have := (allMatchedValid_iff outs nxt.params).mp hb kp hkp v hvv
      rw [this] at hbadv
      exact Bool.noConfusion hbadv
  have hadv : ch.advance = .error .invalidTransition := by
    unfold Chain.advance
    rw [hc, hn]
    simp [ho, hval]
  exact ⟨hadv, by simp [Chain.applyOp, hadv]⟩

/-- Witness for C4: a stage producing output `c = -1` into the
`bounds=(0, None)` input `c` of `Stage2` makes `advance` fail with
`InvalidTransitionError` and leaves the chain untouched. -/
theorem advance_invalid_value_rejected_witness :
    badChain.advance = .error .invalidTransition ∧
      badChain.applyOp .advance = badChain :=
  @advance_invalid_value_rejected badChain "Bad" "Stage 2" badStage stage2 [("c", -1)]
    rfl rfl rfl ⟨("c", ⟨5, some 0, none⟩), List.Mem.head _, -1, rfl, rfl⟩

/-- C5: for every chain with at least one registered stage whose position
is in range, after any sequence of register, advance and retreat
operations — whether each succeeds or fails — `current_index` still
satisfies `0 ≤ current_index < n` where `n ≥ 1` is the number of
registered stages. -/
theorem current_index_in_bounds (ch : Chain) (ops : List Op)
    (h1 : 1 ≤ ch.stages.length) (h2 : ch.current_index < ch.stages.length) :
    0 ≤ (ch.run ops).current_index ∧
      (ch.run ops).current_index < (ch.run ops).stages.length ∧
      1 ≤ (ch.run ops).stages.length := by
  refine ⟨Nat.zero_le _, ?_⟩
  induction ops generalizing ch with
  | nil => exact ⟨h2, h1⟩
  | cons op rest ih =>
      have h := applyOp_preserves_bounds ch op h1 h2
      exact ih (ch.applyOp op) h.1 h.2

/-- Witness for C5: the notebook pipeline, put through a failing retreat
and one more registration, keeps its position strictly inside the stage
list. -/
theorem current_index_in_bounds_witness :
    0 ≤ (examplePipeline.run [.retreat, .register "Stage 3" stage2]).current_index ∧
      (examplePipeline.run [.retreat, .register "Stage 3" stage2]).current_index <
        (examplePipeline.run [.retreat, .register "Stage 3" stage2]).stages.length ∧
      1 ≤ (examplePipeline.run [.retreat, .register "Stage 3" stage2]).stages.length :=
  current_index_in_bounds examplePipeline [.retreat, .register "Stage 3" stage2]
    (by decide) (by decide)

/-- C6: whenever `advance` succeeds, an immediate `retreat` also succeeds
and returns `current_index` to its value before the `advance`, while the
stage state — including every value the `advance` propagated — stays
exactly as the `advance` left it. -/
theorem advance_retreat_roundtrip {ch ch' : Chain}
    (hadv : ch.advance = .ok ch') :
    ∃ ch'', ch'.retreat = .ok ch'' ∧
      ch''.current_index = ch.current_index ∧ ch''.stages = ch'.stages := by
  obtain ⟨cur, nxt, outs, hc, hn, ho, hv, rfl⟩ := advance_ok_shape hadv
  refine ⟨⟨ch.stages.set (ch.current_index + 1)
      (nxt.1, { nxt.2 with params := propagate outs nxt.2.params }), ch.current_index⟩,
    ?_, rfl, rfl⟩
  unfold Chain.retreat
  simp

/-- Witness for C6: advancing the notebook pipeline and then retreating
restores position 0 and keeps the propagated stage state. -/
theorem advance_retreat_roundtrip_witness :
    ∃ ch'', advancedPipeline.retreat = .ok ch'' ∧
      ch''.current_index = examplePipeline.current_index ∧
      ch''.stages = advancedPipeline.stages :=
  advance_retreat_roundtrip example_advance_eval

/-- C7: navigation past a boundary fails and leaves the chain unchanged:
`advance` at the last index fails with `NoNextStageError`, and `retreat`
at index 0 fails with `NoPreviousStageError`; in both cases
`current_index` and the stages are untouched. -/
theorem boundary_navigation_fails (ch : Chain) :
    (ch.current_index + 1 = ch.stages.length →
      ch.advance = .error .noNextStage ∧ ch.applyOp .advance = ch) ∧
    (ch.current_index = 0 →
      ch.retreat = .error .noPreviousStage ∧ ch.applyOp .retreat = ch) := by
  constructor
  · intro hlast
    have hnone : ch.stages.get? (ch.current_index + 1) = none :=
      List.get?_eq_none.mpr (le_of_eq hlast.symm)
    have hadv : ch.advance = .error .noNextStage := by
      unfold Chain.advance
      rcases hc : ch.stages.get? ch.current_index with _ | p
      · rfl
      · obtain ⟨pn, ps⟩ := p
        rw [hnone]
    exact ⟨hadv, by simp [Chain.applyOp, hadv]⟩
  · intro h0
    have hr : ch.retreat = .error .noPreviousStage := by
      unfold Chain.retreat
      rw [if_pos h0]
    exact ⟨hr, by simp [Chain.applyOp, hr]⟩

/-- Witness for C7: in a one-stage chain position 0 is both the first
and the last index, so `advance` and `retreat` both fail there and leave
the chain unchanged. -/
theorem boundary_navigation_fails_witness :
    (singleStageChain.advance = .error .noNextStage ∧
      singleStageChain.applyOp .advance = singleStageChain) ∧
    (singleStageChain.retreat = .error .noPreviousStage ∧
      singleStageChain.applyOp .retreat = singleStageChain) :=
  ⟨(boundary_navigation_fails singleStageChain).1 rfl,
   (boundary_navigation_fails singleStageChain).2 rfl⟩

/-- C8: registering a stage under a name already present fails with
`DuplicateNameError` and leaves the chain unmodified, retaining only the
earlier registration. -/
theorem duplicate_name_rejected (ch : Chain) (name : String) (s : Stage)
    (h : ch.stages.any (fun p => p.1 = name) = true) :
    ch.add_stage name s = .error .duplicateName ∧
      ch.applyOp (.register name s) = ch := by
  have ha : ch.add_stage name s = .error .duplicateName := by
    unfold Chain.add_stage
    rw [if_pos h]
  exact ⟨ha, by simp [Chain.applyOp, ha]⟩

/-- Witness for C8: registering a second stage named "Stage 1" in a
chain that already holds one fails and changes nothing. -/
theorem duplicate_name_rejected_witness :
    singleStageChain.add_stage "Stage 1" stage2 = .error .duplicateName ∧
      singleStageChain.applyOp (.register "Stage 1" stage2) = singleStageChain :=
  duplicate_name_rejected singleStageChain "Stage 1" stage2 (by decide)

/-- C9: whenever the `a` and `b` parameters of `Stage1` lie inside their
declared bounds `(0, 10)`, the output value for `c`, namely `a * b`, is
non-negative, so it satisfies the `bounds=(0, None)` constraint of the
`c` input of `Stage2`; hence in this example chain the name-matched
propagation of `c` during `advance` always passes validation and the
`advance` succeeds. -/
theorem stage1_output_c_always_valid (a b : ℚ)
    (ha0 : 0 ≤ a) (ha1 : a ≤ 10) (hb0 : 0 ≤ b) (hb1 : b ≤ 10) :
    0 ≤ a * b ∧ stage2cParam.valid (a * b) = true ∧
      ∃ ch', Chain.advance ⟨[("Stage 1", stage1At a b), ("Stage 2", stage2)], 0⟩ = .ok ch' := by
  have hnn : 0 ≤ a * b := mul_nonneg ha0 hb0
  have hvalid : stage2cParam.valid (a * b) = true := by
    simp [Param.valid, stage2cParam, hnn]
  refine ⟨hnn, hvalid, ?_⟩
  have ho : resolveOutputs (stage1At a b) = .ok [("c", a * b), ("d", pyPow a b)] := by
    simp [resolveOutputs, stage1At, valueOf, lookupName, Stage1State.output]
  have hval : allMatchedValid [("c", a * b), ("d", pyPow a b)] stage2.params = true := by
    simp [allMatchedValid, lookupName, stage2, stage2At, Param.valid, stage2cParam, hnn]
  exact ⟨_, @advance_ok_build ⟨[("Stage 1", stage1At a b), ("Stage 2", stage2)], 0⟩
    "Stage 1" "Stage 2" (stage1At a b) stage2 [("c", a * b), ("d", pyPow a b)]
    rfl rfl ho hval⟩

/-- Witness for C9: at the notebook defaults `a = 5`, `b = 5` the output
`c = 25` passes the bounds check of `Stage2` and the `advance`
succeeds. -/
theorem stage1_output_c_always_valid_witness :
    0 ≤ (5:ℚ) * 5 ∧ stage2cParam.valid (5 * 5) = true ∧
      ∃ ch', Chain.advance ⟨[("Stage 1", stage1At 5 5), ("Stage 2", stage2)], 0⟩ = .ok ch' :=
  stage1_output_c_always_valid 5 5 (by decide) (by decide) (by decide) (by decide)

/-- C10: the output method of `Stage1` is pure and deterministic: it
leaves the stage state unchanged, its value is a function of the
parameters `a` and `b` alone — two states agreeing on `a` and `b` give
equal results — and that value is exactly the pair `(a * b, a ** b)`. -/
theorem stage1_output_pure (s t : Stage1State)
    (ha : s.a = t.a) (hb : s.b = t.b) :
    s.output.1 = t.output.1 ∧ s.output.2 = s ∧
      s.output.1 = (s.a * s.b, pyPow s.a s.b) := by
  obtain ⟨sa, sb⟩ := s
  obtain ⟨ta, tb⟩ := t
  cases ha
  cases hb
  exact ⟨rfl, rfl, rfl⟩

/-- Witness for C10: two `Stage1` states with `a = 5`, `b = 5` agree on
the output pair, and the call mutates nothing. -/
theorem stage1_output_pure_witness :
    (Stage1State.mk 5 5).output.1 = (Stage1State.mk 5 5).output.1 ∧
      (Stage1State.mk 5 5).output.2 = Stage1State.mk 5 5 ∧
      (Stage1State.mk 5 5).output.1 = (5 * 5, pyPow 5 5) :=
  stage1_output_pure (Stage1State.mk 5 5) (Stage1State.mk 5 5) rfl rfl

end Pipelines
